import Mathlib

/-!
Verification of the NCM container decoder (`ncmdump` in `src/main.py`).

The Python source is shallowly embedded: byte strings and bytearrays
become `List Nat` (each element a byte value), Python exceptions become
an explicit `Except` error result, and the external library calls
(AES-ECB decryption from `cryptography`, `base64.b64decode`, UTF-8
decoding, `json.loads`) are parameters of the decoder, collected in the
structure `Ext`.  `x & 0xff` is written `x % 256`.
-/

namespace Ncm

/-- The 8 magic bytes `CTENFDAM`; the source asserts
`binascii.b2a_hex(header) == b'4354454e4644414d'`. -/
def magicBytes : List Nat := [0x43, 0x54, 0x45, 0x4E, 0x46, 0x44, 0x41, 0x4D]

/-- `struct.unpack('<I', b)`: little-endian 32-bit integer from 4 bytes. -/
def leU32 (b : List Nat) : Nat :=
  b.getD 0 0 + 256 * b.getD 1 0 + 65536 * b.getD 2 0 + 16777216 * b.getD 3 0

/-- Little-endian 4-byte encoding of `n`, used to build test containers. -/
def toLE4 (n : Nat) : List Nat :=
  [n % 256, n / 256 % 256, n / 65536 % 256, n / 16777216 % 256]

/-- Python slice `s[0:-n]` for a nonnegative integer `n`.  Python's `-0`
is `0`, so `n = 0` yields the empty slice `s[0:0]`; for `n > 0` the stop
index is `len(s) - n`, clamped below at `0`. -/
def pySliceNeg (s : List Nat) (n : Nat) : List Nat :=
  if n = 0 then [] else s.take (s.length - n)

/-- `unpad` from the source: `s[0:-(s[-1])]` — strips as many trailing
bytes as the value of the final byte, with no validation of that value.
(`s[-1]` of an empty bytes object raises `IndexError`; the caller
`decodeE` models that case separately.) -/
def unpad (s : List Nat) : List Nat :=
  pySliceNeg s (s.getLastD 0)

/-! ## Key-box scheduling (source lines 54–66) -/

/-- One iteration of the scheduling loop.  State is
`(key_box, last_byte, key_offset)`.  The source reads
`swap = key_box[i]`, `c = (swap + last_byte + key_data[key_offset]) & 0xff`,
advances `key_offset` circularly, then performs
`key_box[i] = key_box[c]; key_box[c] = swap`. -/
def keyBoxStep (key : List Nat) (st : List Nat × Nat × Nat) (i : Nat) :
    List Nat × Nat × Nat :=
  let box := st.1
  let last := st.2.1
  let off := st.2.2
  let swap := box.getD i 0
  let c := (swap + last + key.getD off 0) % 256
  let off' := if off + 1 ≥ key.length then 0 else off + 1
  let box' := (box.set i (box.getD c 0)).set c swap
  (box', c, off')

/-- The scheduling state after the first `n` of the 256 loop iterations,
starting from `key_box = bytearray(range(256))`, `last_byte = 0`,
`key_offset = 0`. -/
def keyBoxAfter (key : List Nat) (n : Nat) : List Nat × Nat × Nat :=
  ((List.range 256).take n).foldl (keyBoxStep key) (List.range 256, 0, 0)

/-- The finished key box: all 256 iterations of the scheduling loop. -/
def buildKeyBox (key : List Nat) : List Nat :=
  (keyBoxAfter key 256).1

/-! ## Per-byte keystream transform (source lines 91–93) -/

/-- The keystream byte for 1-based position `i` within a chunk:
`j = i & 0xff`, then
`key_box[(key_box[j] + key_box[(key_box[j] + j) & 0xff]) & 0xff]`. -/
def keystreamByte (box : List Nat) (i : Nat) : Nat :=
  let j := i % 256
  box.getD ((box.getD j 0 + box.getD ((box.getD j 0 + j) % 256) 0) % 256) 0

/-- The in-place XOR loop over one chunk, `i` being the 1-based position
of the next byte: `chunk[i-1] ^= keystream(i)`. -/
def decryptFrom (box : List Nat) : Nat → List Nat → List Nat
  | _, [] => []
  | i, b :: rest => (b ^^^ keystreamByte box i) :: decryptFrom box (i + 1) rest

/-- One chunk, position starting at 1, as in the source's inner `for` loop
`for i in range(1, chunk_length + 1)`. -/
def decryptChunk (box : List Nat) (chunk : List Nat) : List Nat :=
  decryptFrom box 1 chunk

/-- The source's `while True` loop: read up to `0x8000` bytes, stop on an
empty read, transform each chunk with positions restarting at 1. -/
def decryptChunked (box : List Nat) (payload : List Nat) : List Nat :=
  if payload.isEmpty then []
  else decryptFrom box 1 (payload.take 0x8000) ++ decryptChunked box (payload.drop 0x8000)
termination_by payload.length
decreasing_by
  rename_i h
  have hne : payload ≠ [] := by
    intro hnil
    rw [hnil] at h
    simp at h
  have hlen : payload.length ≠ 0 := fun hz => hne (List.eq_nil_of_length_eq_zero hz)
  simp only [List.length_drop]
  omega

/-- Specification-side alternative (§4.4 of the spec): the same per-byte
transform with the 1-based position counted continuously across the whole
payload instead of restarting at each chunk boundary. -/
def decryptContinuous (box : List Nat) (payload : List Nat) : List Nat :=
  decryptFrom box 1 payload

/-! ## Bounds-checked variant of the keystream lookups

`keystreamChecked` performs exactly the table lookups of source lines
92–93, but through `List.get?`, so an out-of-range index would surface as
`none` instead of a default value. -/

/-- The three `key_box[...]` lookups of the per-byte transform, each
bounds-checked. -/
def keystreamChecked (box : List Nat) (i : Nat) : Option Nat :=
  let j := i % 256
  match box.get? j with
  | none => none
  | some bj =>
    match box.get? ((bj + j) % 256) with
    | none => none
    | some b2 => box.get? ((bj + b2) % 256)

/-- The chunk loop with every table lookup bounds-checked. -/
def decryptFromChecked (box : List Nat) : Nat → List Nat → Option (List Nat)
  | _, [] => some []
  | i, b :: rest =>
    match keystreamChecked box i with
    | none => none
    | some ks =>
      match decryptFromChecked box (i + 1) rest with
      | none => none
      | some r => some ((b ^^^ ks) :: r)

/-! ## The whole decode path of `ncmdump` -/

/-- The Python exceptions that can escape the decode path (the source's
`try` only catches `KeyboardInterrupt`). -/
inductive DecodeErr where
  /-- the failed magic `assert` (an `AssertionError`) -/
  | formatError
  /-- `struct.unpack('<I', …)` applied to fewer than 4 bytes -/
  | structError
  /-- AES `finalize()` on data that is not a multiple of 16 bytes -/
  | valueError
  /-- indexing an empty sequence (`s[-1]` in `unpad`, or
  `key_data[key_offset]` with an empty seed key) -/
  | indexError
  /-- `binascii.Error` from `base64.b64decode` -/
  | base64Error
  /-- `UnicodeDecodeError` from `bytes.decode('utf-8')` -/
  | unicodeError
  /-- `json.JSONDecodeError` from `json.loads` -/
  | jsonError
  /-- `KeyError` from `meta_data["format"]` -/
  | keyError
  deriving DecidableEq

/-- The external library functions that `ncmdump` calls, as parameters of
the embedding.  `none` models the library raising an exception. -/
structure Ext where
  /-- AES-128-ECB decryption under the core key
  `687A4852416D736F356B496E62617857`; total on inputs whose length is a
  multiple of 16 (the caller checks that first, as the library raises
  before producing output otherwise). -/
  aesCore : List Nat → List Nat
  /-- AES-128-ECB decryption under the meta key
  `2331346C6A6B5F215C5D2630553C2728`. -/
  aesMeta : List Nat → List Nat
  /-- `base64.b64decode`. -/
  b64dec : List Nat → Option (List Nat)
  /-- `bytes.decode('utf-8')`. -/
  utf8dec : List Nat → Option String
  /-- `json.loads`, returning the decoded top-level object as an
  association list of its string entries. -/
  jsonLoads : String → Option (List (String × String))

/-- The decode path of `ncmdump` (source lines 39–94) over the container
bytes `s`, following the source's reads, checks, and exception sites in
order.  `f.read(n)` returns the at most `n` bytes available, and the file
cursor is tracked as an explicit offset.  The result is the pair of the
format tag (`meta_data["format"]`, used for the output extension) and the
decrypted audio byte stream. -/
def decodeE (ext : Ext) (s : List Nat) : Except DecodeErr (String × List Nat) :=
  -- header = f.read(8); assert … == b'4354454e4644414d'
  if s.take 8 ≠ magicBytes then .error .formatError else
  -- f.seek(2, 1); key_length = struct.unpack('<I', f.read(4))
  let keyLenB := (s.drop 10).take 4
  if keyLenB.length < 4 then .error .structError else
  let keyLen := leU32 keyLenB
  -- key_data = f.read(key_length), then XOR each byte with 0x64
  let keyData0 := (s.drop 14).take keyLen
  let posA := 14 + keyData0.length
  let keyXored := keyData0.map (fun b => b ^^^ 0x64)
  -- AES-ECB decrypt (finalize raises on partial blocks), unpad, drop 17
  if keyXored.length % 16 ≠ 0 then .error .valueError else
  let keyDec := ext.aesCore keyXored
  if keyDec.isEmpty then .error .indexError else
  let key_data := (unpad keyDec).drop 17
  -- the scheduling loop reads key_data[key_offset]: empty seed key raises
  if key_data.isEmpty then .error .indexError else
  let box := buildKeyBox key_data
  -- meta_length = struct.unpack('<I', f.read(4)); meta_data = f.read(…)
  let metaLenB := (s.drop posA).take 4
  if metaLenB.length < 4 then .error .structError else
  let metaLen := leU32 metaLenB
  let metaData0 := (s.drop (posA + 4)).take metaLen
  let posB := posA + 4 + metaData0.length
  -- XOR each byte with 0x63, drop the 22-byte label, base64-decode
  let metaXored := metaData0.map (fun b => b ^^^ 0x63)
  match ext.b64dec (metaXored.drop 22) with
  | none => .error .base64Error
  | some metaB64 =>
  -- AES-ECB decrypt, unpad, decode UTF-8, drop the 6-character label
  if metaB64.length % 16 ≠ 0 then .error .valueError else
  let metaDec := ext.aesMeta metaB64
  if metaDec.isEmpty then .error .indexError else
  match ext.utf8dec (unpad metaDec) with
  | none => .error .unicodeError
  | some metaStr =>
  match ext.jsonLoads (metaStr.drop 6) with
  | none => .error .jsonError
  | some metaDict =>
  -- crc32 = struct.unpack('<I', f.read(4)) — read, never used
  let crcB := (s.drop posB).take 4
  if crcB.length < 4 then .error .structError else
  -- f.seek(5, 1); image_size = struct.unpack('<I', f.read(4)) — read, never used
  let posC := posB + 4 + 5
  let imgB := (s.drop posC).take 4
  if imgB.length < 4 then .error .structError else
  let posD := posC + 4
  -- meta_data["format"] (a KeyError escapes if the field is missing),
  -- then the chunked keystream transform over the rest of the stream
  match metaDict.lookup "format" with
  | none => .error .keyError
  | some fmt => .ok (fmt, decryptChunked box (s.drop posD))

/-- A synthetic container laid out as in the source's reads: magic, 2
reserved bytes, the length-prefixed key blob, the length-prefixed meta
blob, a CRC32 field, 5 reserved bytes, the cover-image-size field, and
the audio payload. -/
def mkContainer (kb mb crc img payload : List Nat) : List Nat :=
  magicBytes ++ ([0, 0] ++ (toLE4 kb.length ++ (kb ++ (toLE4 mb.length ++ (mb
    ++ (crc ++ ([0, 0, 0, 0, 0] ++ (img ++ payload))))))))

/-- A family of external-function instances used for concrete test
containers: AES decryption is the constant function returning `keyPlain`
resp. a fixed 7-byte meta plaintext, base64 yields 16 zero bytes, UTF-8
yields `"music:{}"`, and the JSON object has a single `"format"` entry. -/
def sampleExt (keyPlain : List Nat) : Ext where
  aesCore := fun _ => keyPlain
  aesMeta := fun _ => [109, 117, 115, 105, 99, 58, 1]
  b64dec := fun _ => some (List.replicate 16 0)
  utf8dec := fun _ => some "music:\x7b\x7d"
  jsonLoads := fun _ => some [("format", "mp3")]

/-- A key plaintext whose final padding byte is `1`: `unpad` strips one
byte, and dropping 17 more leaves the one-byte seed key `b"A"`. -/
def goodKeyPlain : List Nat := List.replicate 17 0 ++ [65, 1]

/-- A key plaintext whose final byte is the invalid padding value `18`:
`unpad` silently strips 18 of the 48 bytes, and dropping 17 more leaves a
13-byte (mis-stripped) seed key. -/
def badPadKeyPlain : List Nat := List.replicate 47 65 ++ [18]

/-! ## Lemmas about the keystream transform -/

theorem decryptFrom_involution (box : List Nat) (i : Nat) (x : List Nat) :
    decryptFrom box i (decryptFrom box i x) = x := by
  induction x generalizing i with
  | nil => rfl
  | cons b rest ih =>
    simp only [decryptFrom, Nat.xor_cancel_right, ih]

theorem keystreamByte_mod (box : List Nat) (i : Nat) :
    keystreamByte box i = keystreamByte box (i % 256) := by
  simp only [keystreamByte, Nat.mod_mod_of_dvd _ (dvd_refl 256)]

theorem decryptFrom_congr_mod (box : List Nat) (i k : Nat) (x : List Nat)
    (h : i % 256 = k % 256) : decryptFrom box i x = decryptFrom box k x := by
  induction x generalizing i k with
  | nil => rfl
  | cons b rest ih =>
    have hks : keystreamByte box i = keystreamByte box k := by
      rw [keystreamByte_mod box i, keystreamByte_mod box k, h]
    have hnext : (i + 1) % 256 = (k + 1) % 256 := by
      rw [Nat.add_mod i 1, Nat.add_mod k 1, h]
    simp only [decryptFrom, hks, ih _ _ hnext]

theorem decryptFrom_append (box : List Nat) (i : Nat) (a b : List Nat) :
    decryptFrom box i (a ++ b) = decryptFrom box i a ++ decryptFrom box (i + a.length) b := by
  induction a generalizing i with
  | nil => simp [decryptFrom]
  | cons x rest ih =>
    have harith : i + (rest.length + 1) = i + 1 + rest.length := by omega
    simp only [List.cons_append, decryptFrom, List.length_cons, harith]
    rw [show rest.append b = rest ++ b from rfl, ih (i + 1)]

theorem decryptChunked_eq_continuous (box : List Nat) (payload : List Nat) :
    decryptChunked box payload = decryptContinuous box payload := by
  suffices h : ∀ (n : Nat) (l : List Nat), l.length ≤ n →
      decryptChunked box l = decryptFrom box 1 l by
    exact h payload.length payload le_rfl
  intro n
  induction n with
  | zero =>
    intro l hl
    have : l = [] := List.eq_nil_of_length_eq_zero (Nat.le_zero.mp hl)
    subst this
    rw [decryptChunked]
    rfl
  | succ n ih =>
    intro l hl
    rw [decryptChunked]
    by_cases hemp : l.isEmpty
    · rw [if_pos hemp]
      have : l = [] := by
        cases l with
        | nil => rfl
        | cons a t => simp at hemp
      subst this
      rfl
    · rw [if_neg hemp]
      have hne : l ≠ [] := by
        intro hnil
        subst hnil
        simp at hemp
      have hpos : 0 < l.length := List.length_pos.mpr hne
      have hdroplen : (l.drop 0x8000).length ≤ n := by
        simp only [List.length_drop]
        omega
      rw [ih _ hdroplen]
      by_cases hle : l.length ≤ 0x8000
      · rw [List.take_of_length_le hle, List.drop_eq_nil_of_le hle]
        simp [decryptFrom]
      · have htake : (l.take 0x8000).length = 0x8000 := by
          simp only [List.length_take]
          omega
        have hsplit : decryptFrom box 1 l
            = decryptFrom box 1 (l.take 0x8000)
              ++ decryptFrom box (1 + (l.take 0x8000).length) (l.drop 0x8000) := by
          conv_lhs => rw [← List.take_append_drop 0x8000 l]
          exact decryptFrom_append box 1 _ _
        rw [hsplit, htake]
        have : decryptFrom box (1 + 0x8000) (l.drop 0x8000)
            = decryptFrom box 1 (l.drop 0x8000) :=
          decryptFrom_congr_mod box _ _ _ (by norm_num)
        rw [this]

/-! ## Lemmas about the bounds-checked lookups -/

theorem get?_eq_some_getD (l : List Nat) (n : Nat) (h : n < l.length) :
    l.get? n = some (l.getD n 0) := by
  rw [List.get?_eq_getElem?, List.getD_eq_getElem?_getD, List.getElem?_eq_getElem h]
  rfl

theorem keystreamChecked_eq (box : List Nat) (i : Nat) (hbox : box.length = 256) :
    keystreamChecked box i = some (keystreamByte box i) := by
  have hlt : ∀ m : Nat, m % 256 < box.length := by
    intro m
    rw [hbox]
    exact Nat.mod_lt _ (by omega)
  rw [keystreamChecked, keystreamByte]
  rw [get?_eq_some_getD box (i % 256) (hlt i)]
  dsimp only
  rw [get?_eq_some_getD box ((box.getD (i % 256) 0 + i % 256) % 256) (hlt _)]
  dsimp only
  rw [get?_eq_some_getD box ((box.getD (i % 256) 0
    + box.getD ((box.getD (i % 256) 0 + i % 256) % 256) 0) % 256) (hlt _)]

theorem decryptFromChecked_eq (box : List Nat) (hbox : box.length = 256)
    (i : Nat) (chunk : List Nat) :
    decryptFromChecked box i chunk = some (decryptFrom box i chunk) := by
  induction chunk generalizing i with
  | nil => rfl
  | cons b rest ih =>
    rw [decryptFromChecked, decryptFrom, keystreamChecked_eq box i hbox, ih (i + 1)]

/-! ## The scheduling loop preserves the permutation property -/

theorem getD_eq_getElem_zero (l : List Nat) (n : Nat) (h : n < l.length) :
    l.getD n 0 = l[n] := by
  rw [List.getD_eq_getElem?_getD, List.getElem?_eq_getElem h]
  rfl

/-- The two `set`s of one scheduling iteration
(`key_box[i] = key_box[c]; key_box[c] = swap`) leave every value's
multiplicity unchanged. -/
theorem count_swap_set (l : List Nat) (i c : Nat) (hi : i < l.length)
    (hc : c < l.length) (v : Nat) :
    ((l.set i (l.getD c 0)).set c (l.getD i 0)).count v = l.count v := by
  have hgi : l.getD i 0 = l[i] := getD_eq_getElem_zero l i hi
  have hgc : l.getD c 0 = l[c] := getD_eq_getElem_zero l c hc
  have hc1 : c < (l.set i (l.getD c 0)).length := by
    rw [List.length_set]
    exact hc
  have h2 := List.count_set (l.getD i 0) v (l.set i (l.getD c 0)) c hc1
  have h1 := List.count_set (l.getD c 0) v l i hi
  have hsc : (l.set i (l.getD c 0))[c] = if i = c then l.getD c 0 else l[c] :=
    List.getElem_set hc1
  have hmi : l[i] ∈ l := List.getElem_mem hi
  have hmc : l[c] ∈ l := List.getElem_mem hc
  rw [h2, h1, hsc, hgi, hgc, ite_self]
  simp only [beq_iff_eq]
  by_cases hA : l[i] = v
  · have hcountA : 1 ≤ l.count v := List.count_pos_iff.mpr (hA ▸ hmi)
    by_cases hB : l[c] = v
    · simp only [if_pos hA, if_pos hB]
      omega
    · simp only [if_pos hA, if_neg hB]
      omega
  · by_cases hB : l[c] = v
    · have hcountB : 1 ≤ l.count v := List.count_pos_iff.mpr (hB ▸ hmc)
      simp only [if_neg hA, if_pos hB]
      omega
    · simp only [if_neg hA, if_neg hB]
      omega

/-- One scheduling iteration keeps the box a permutation of `0..255`. -/
theorem keyBoxStep_perm (key : List Nat) (st : List Nat × Nat × Nat) (i : Nat)
    (hi : i < 256) (hperm : st.1.Perm (List.range 256)) :
    (keyBoxStep key st i).1.Perm (List.range 256) := by
  have hlen : st.1.length = 256 := by
    rw [hperm.length_eq, List.length_range]
  have hi' : i < st.1.length := by
    rw [hlen]
    exact hi
  have hc : (st.1.getD i 0 + st.2.1 + key.getD st.2.2 0) % 256 < st.1.length := by
    rw [hlen]
    exact Nat.mod_lt _ (by omega)
  refine List.Perm.trans ?_ hperm
  rw [List.perm_iff_count]
  intro v
  exact count_swap_set st.1 i _ hi' hc v

theorem foldl_keyBoxStep_perm (key : List Nat) (is : List Nat) :
    ∀ (st : List Nat × Nat × Nat), (∀ i ∈ is, i < 256) →
      st.1.Perm (List.range 256) →
      ((is.foldl (keyBoxStep key) st).1).Perm (List.range 256) := by
  induction is with
  | nil =>
    intro st _ h
    exact h
  | cons a t ih =>
    intro st hmem hperm
    rw [List.foldl_cons]
    exact ih _ (fun i hi => hmem i (List.mem_cons_of_mem a hi))
      (keyBoxStep_perm key st a (hmem a (List.mem_cons_self a t)) hperm)

/-! ## Slices of a synthetic container -/

theorem leU32_toLE4 (n : Nat) (h : n < 4294967296) : leU32 (toLE4 n) = n := by
  simp [leU32, toLE4]
  omega

theorem toLE4_length (n : Nat) : (toLE4 n).length = 4 := rfl

theorem mk_take8 (kb mb crc img p : List Nat) :
    (mkContainer kb mb crc img p).take 8 = magicBytes := rfl

theorem mk_keyLenB (kb mb crc img p : List Nat) :
    ((mkContainer kb mb crc img p).drop 10).take 4 = toLE4 kb.length := rfl

theorem mk_drop14 (kb mb crc img p : List Nat) :
    (mkContainer kb mb crc img p).drop 14
      = kb ++ (toLE4 mb.length ++ (mb ++ (crc ++ ([0, 0, 0, 0, 0] ++ (img ++ p))))) := rfl

theorem mk_keyData (kb mb crc img p : List Nat) :
    ((mkContainer kb mb crc img p).drop 14).take kb.length = kb := by
  rw [mk_drop14]
  exact List.take_left kb _

theorem mk_dropA (kb mb crc img p : List Nat) :
    (mkContainer kb mb crc img p).drop (14 + kb.length)
      = toLE4 mb.length ++ (mb ++ (crc ++ ([0, 0, 0, 0, 0] ++ (img ++ p)))) := by
  rw [← List.drop_drop, mk_drop14]
  exact List.drop_left kb _

theorem mk_metaLenB (kb mb crc img p : List Nat) :
    ((mkContainer kb mb crc img p).drop (14 + kb.length)).take 4 = toLE4 mb.length := by
  rw [mk_dropA]
  exact List.take_left' rfl

theorem mk_dropA4 (kb mb crc img p : List Nat) :
    (mkContainer kb mb crc img p).drop (14 + kb.length + 4)
      = mb ++ (crc ++ ([0, 0, 0, 0, 0] ++ (img ++ p))) := by
  rw [← List.drop_drop, mk_dropA]
  exact List.drop_left' rfl

theorem mk_metaData (kb mb crc img p : List Nat) :
    ((mkContainer kb mb crc img p).drop (14 + kb.length + 4)).take mb.length = mb := by
  rw [mk_dropA4]
  exact List.take_left mb _

theorem mk_dropB (kb mb crc img p : List Nat) :
    (mkContainer kb mb crc img p).drop (14 + kb.length + 4 + mb.length)
      = crc ++ ([0, 0, 0, 0, 0] ++ (img ++ p)) := by
  rw [← List.drop_drop, mk_dropA4]
  exact List.drop_left mb _

theorem mk_crcB (kb mb crc img p : List Nat) (hcrc : crc.length = 4) :
    ((mkContainer kb mb crc img p).drop (14 + kb.length + 4 + mb.length)).take 4 = crc := by
  rw [mk_dropB]
  exact List.take_left' hcrc

theorem mk_dropC (kb mb crc img p : List Nat) (hcrc : crc.length = 4) :
    (mkContainer kb mb crc img p).drop (14 + kb.length + 4 + mb.length + 4 + 5)
      = img ++ p := by
  rw [show 14 + kb.length + 4 + mb.length + 4 + 5
      = 14 + kb.length + 4 + mb.length + (4 + 5) from by omega]
  rw [← List.drop_drop, mk_dropB]
  rw [show (4 + 5 : Nat) = 4 + 5 from rfl, ← List.drop_drop, List.drop_left' hcrc]
  exact List.drop_left' rfl

theorem mk_imgB (kb mb crc img p : List Nat) (hcrc : crc.length = 4)
    (himg : img.length = 4) :
    ((mkContainer kb mb crc img p).drop (14 + kb.length + 4 + mb.length + 4 + 5)).take 4
      = img := by
  rw [mk_dropC kb mb crc img p hcrc]
  exact List.take_left' himg

theorem mk_dropD (kb mb crc img p : List Nat) (hcrc : crc.length = 4)
    (himg : img.length = 4) :
    (mkContainer kb mb crc img p).drop (14 + kb.length + 4 + mb.length + 4 + 5 + 4) = p := by
  rw [← List.drop_drop, mk_dropC kb mb crc img p hcrc]
  exact List.drop_left' himg

/-- Evaluation of the decode path on a synthetic container whose key and
meta paths succeed: the audio output is the keystream transform of
exactly the bytes following the cover-image-size field, and the stored
CRC32 bytes and cover-image-size bytes influence nothing. -/
theorem decodeE_mkContainer (ext : Ext) (kb mb crc img p mB : List Nat)
    (metaStr : String) (metaDict : List (String × String)) (fmt : String)
    (hkb32 : kb.length < 4294967296) (hmb32 : mb.length < 4294967296)
    (hcrc : crc.length = 4) (himg : img.length = 4)
    (hk16 : kb.length % 16 = 0)
    (hkdec : ext.aesCore (kb.map (fun b => b ^^^ 0x64)) ≠ [])
    (hseed : (unpad (ext.aesCore (kb.map (fun b => b ^^^ 0x64)))).drop 17 ≠ [])
    (hb64 : ext.b64dec ((mb.map (fun b => b ^^^ 0x63)).drop 22) = some mB)
    (hm16 : mB.length % 16 = 0)
    (hmdec : ext.aesMeta mB ≠ [])
    (hutf : ext.utf8dec (unpad (ext.aesMeta mB)) = some metaStr)
    (hjson : ext.jsonLoads (metaStr.drop 6) = some metaDict)
    (hfmt : metaDict.lookup "format" = some fmt) :
    decodeE ext (mkContainer kb mb crc img p)
      = .ok (fmt, decryptChunked
          (buildKeyBox ((unpad (ext.aesCore (kb.map (fun b => b ^^^ 0x64)))).drop 17)) p) := by
  have hkdec' : (ext.aesCore (kb.map (fun b => b ^^^ 0x64))).isEmpty = false :=
    List.isEmpty_eq_false.mpr hkdec
  have hseed' : ((unpad (ext.aesCore (kb.map (fun b => b ^^^ 0x64)))).drop 17).isEmpty
      = false := List.isEmpty_eq_false.mpr hseed
  have hmdec' : (ext.aesMeta mB).isEmpty = false := List.isEmpty_eq_false.mpr hmdec
  simp only [decodeE, mk_take8, mk_keyLenB, toLE4_length, leU32_toLE4 _ hkb32,
    leU32_toLE4 _ hmb32, mk_keyData, mk_metaLenB, mk_metaData,
    mk_crcB kb mb crc img p hcrc, mk_imgB kb mb crc img p hcrc himg,
    mk_dropD kb mb crc img p hcrc himg,
    List.length_map, hk16, hkdec', hseed', hb64, hm16, hmdec', hutf, hjson, hfmt,
    hcrc, himg, ne_eq, eq_self_iff_true, not_true_eq_false, Bool.false_eq_true,
    if_false, show ¬(4 : Nat) < 4 from by omega]

theorem decryptChunked_nil (box : List Nat) : decryptChunked box [] = [] := by
  rw [decryptChunked]
  rfl

/-! ## The claims -/

set_option maxRecDepth 8192 in
/-- C1: for every non-empty seed key of length 1 to 64 bytes, the key-box
scheduling loop, starting from `box[i] = i`, keeps the 256-entry table a
permutation of the integers 0..255 after each of the 256 iterations
(`keyBoxAfter key n` for every `n ≤ 256`), and in particular the finished
`buildKeyBox key` is such a permutation, because each iteration performs
a single swap of two entries. -/
theorem c1_keybox_schedule_is_permutation (key : List Nat) (n : Nat)
    (h1 : 1 ≤ key.length) (h2 : key.length ≤ 64) (hn : n ≤ 256) :
    ((keyBoxAfter key n).1).Perm (List.range 256)
      ∧ (buildKeyBox key).Perm (List.range 256) := by
  have hgen : ∀ m : Nat, ((keyBoxAfter key m).1).Perm (List.range 256) := by
    intro m
    unfold keyBoxAfter
    exact foldl_keyBoxStep_perm key ((List.range 256).take m) (List.range 256, 0, 0)
      (fun i hi => List.mem_range.mp (List.take_subset m _ hi)) (List.Perm.refl _)
  exact ⟨hgen n, hgen 256⟩

/-- C1 witness: the scheduling invariant at the concrete seed key `[0]`
after 4 iterations, and for the finished box. -/
theorem c1_keybox_schedule_is_permutation_witness :
    1 ≤ ([0] : List Nat).length ∧ ([0] : List Nat).length ≤ 64 ∧ (4 : Nat) ≤ 256 ∧
      (((keyBoxAfter [0] 4).1).Perm (List.range 256)
        ∧ (buildKeyBox [0]).Perm (List.range 256)) :=
  ⟨by decide, by decide, by decide,
    c1_keybox_schedule_is_permutation [0] 4 (by decide) (by decide) (by decide)⟩

/-- C2: for every 256-entry byte table and every byte sequence of length
at most 32768, applying the per-byte keystream transform twice with the
same key box reproduces the input: the keystream byte depends only on the
position and the key box, never on the payload content. -/
theorem c2_decrypt_involution (box x : List Nat) (hbox : box.length = 256)
    (hboxv : ∀ b ∈ box, b < 256) (hlen : x.length ≤ 32768)
    (hxv : ∀ b ∈ x, b < 256) :
    decryptChunk box (decryptChunk box x) = x :=
  decryptFrom_involution box 1 x

/-- C2 witness: the involution at the identity table and a 3-byte chunk. -/
theorem c2_decrypt_involution_witness :
    (List.range 256).length = 256 ∧ (∀ b ∈ List.range 256, b < 256) ∧
      ([1, 2, 250] : List Nat).length ≤ 32768 ∧ (∀ b ∈ ([1, 2, 250] : List Nat), b < 256) ∧
      decryptChunk (List.range 256) (decryptChunk (List.range 256) [1, 2, 250]) = [1, 2, 250] :=
  ⟨by simp, by simp [List.mem_range], by decide, by decide,
    c2_decrypt_involution (List.range 256) [1, 2, 250] (by simp)
      (by simp [List.mem_range]) (by decide) (by decide)⟩

/-- C4: for every well-formed container, the bytes starting immediately
after the 4-byte cover-image-size field are treated as the audio payload
and transformed with the keystream, without skipping cover-image bytes,
regardless of the value stored in that field (`img` is an arbitrary
4-byte field and `p` the bytes that immediately follow it). -/
theorem c4_no_cover_image_skip (ext : Ext) (kb mb crc img p mB : List Nat)
    (metaStr : String) (metaDict : List (String × String)) (fmt : String)
    (hkb32 : kb.length < 4294967296) (hmb32 : mb.length < 4294967296)
    (hcrc : crc.length = 4) (himg : img.length = 4)
    (hk16 : kb.length % 16 = 0)
    (hkdec : ext.aesCore (kb.map (fun b => b ^^^ 0x64)) ≠ [])
    (hseed : (unpad (ext.aesCore (kb.map (fun b => b ^^^ 0x64)))).drop 17 ≠ [])
    (hb64 : ext.b64dec ((mb.map (fun b => b ^^^ 0x63)).drop 22) = some mB)
    (hm16 : mB.length % 16 = 0)
    (hmdec : ext.aesMeta mB ≠ [])
    (hutf : ext.utf8dec (unpad (ext.aesMeta mB)) = some metaStr)
    (hjson : ext.jsonLoads (metaStr.drop 6) = some metaDict)
    (hfmt : metaDict.lookup "format" = some fmt) :
    decodeE ext (mkContainer kb mb crc img p)
      = .ok (fmt, decryptChunked
          (buildKeyBox ((unpad (ext.aesCore (kb.map (fun b => b ^^^ 0x64)))).drop 17)) p) :=
  decodeE_mkContainer ext kb mb crc img p mB metaStr metaDict fmt hkb32 hmb32 hcrc himg
    hk16 hkdec hseed hb64 hm16 hmdec hutf hjson hfmt

/-- C4 witness: a concrete container with a nonzero cover-image-size
field whose following bytes are transformed as audio. -/
theorem c4_no_cover_image_skip_witness :
    ([] : List Nat).length < 4294967296 ∧ ([] : List Nat).length < 4294967296 ∧
      ([1, 2, 3, 4] : List Nat).length = 4 ∧ ([9, 9, 9, 9] : List Nat).length = 4 ∧
      ([] : List Nat).length % 16 = 0 ∧
      (sampleExt goodKeyPlain).aesCore (([] : List Nat).map (fun b => b ^^^ 0x64)) ≠ [] ∧
      (unpad ((sampleExt goodKeyPlain).aesCore
        (([] : List Nat).map (fun b => b ^^^ 0x64)))).drop 17 ≠ [] ∧
      (sampleExt goodKeyPlain).b64dec ((([] : List Nat).map (fun b => b ^^^ 0x63)).drop 22)
        = some (List.replicate 16 0) ∧
      (List.replicate 16 (0 : Nat)).length % 16 = 0 ∧
      (sampleExt goodKeyPlain).aesMeta (List.replicate 16 0) ≠ [] ∧
      (sampleExt goodKeyPlain).utf8dec
        (unpad ((sampleExt goodKeyPlain).aesMeta (List.replicate 16 0)))
        = some "music:\x7b\x7d" ∧
      (sampleExt goodKeyPlain).jsonLoads (String.drop "music:\x7b\x7d" 6)
        = some [("format", "mp3")] ∧
      List.lookup "format" [("format", "mp3")] = some "mp3" ∧
      decodeE (sampleExt goodKeyPlain) (mkContainer [] [] [1, 2, 3, 4] [9, 9, 9, 9] [5, 6, 7])
        = .ok ("mp3", decryptChunked
            (buildKeyBox ((unpad ((sampleExt goodKeyPlain).aesCore
              (([] : List Nat).map (fun b => b ^^^ 0x64)))).drop 17)) [5, 6, 7]) :=
  ⟨by decide, by decide, by decide, by decide, by decide, by decide, by decide, rfl,
    by decide, by decide, rfl, rfl, by decide,
    c4_no_cover_image_skip (sampleExt goodKeyPlain) [] [] [1, 2, 3, 4] [9, 9, 9, 9] [5, 6, 7]
      (List.replicate 16 0) "music:\x7b\x7d" [("format", "mp3")] "mp3"
      (by decide) (by decide) (by decide) (by decide) (by decide) (by decide) (by decide)
      rfl (by decide) (by decide) rfl rfl (by decide)⟩

/-- C3 counterexample: a container whose AES-decrypted key blob ends in
the invalid padding value 18 (> 16) decodes successfully — `unpad`
silently strips 18 of the 48 bytes instead of raising any error, and no
`CryptoError` exists anywhere on the decode path. -/
theorem c3_counterexample :
    decodeE (sampleExt badPadKeyPlain) (mkContainer [] [] [0, 0, 0, 0] [7, 0, 0, 0] [])
      = .ok ("mp3", []) ∧ (unpad badPadKeyPlain).length = 30 := by
  constructor
  · rw [decodeE_mkContainer (sampleExt badPadKeyPlain) [] [] [0, 0, 0, 0] [7, 0, 0, 0] []
      (List.replicate 16 0) "music:\x7b\x7d" [("format", "mp3")] "mp3"
      (by decide) (by decide) (by decide) (by decide) (by decide) (by decide) (by decide)
      rfl (by decide) (by decide) rfl rfl (by decide), decryptChunked_nil]
  · decide

/-- C3 amended: `unpad` never validates the padding byte, so no
`CryptoError` is raised.  A padding value of 0 makes `unpad` return the
empty sequence (Python `s[0:-0] = s[0:0]`), after which the scheduling
loop indexes the empty seed key and decode fails with `IndexError`
instead; a padding value > 16 strips that many bytes silently (see the
counterexample, where decode then completes without any error). -/
theorem c3_amended_padding_not_validated (ext : Ext) (kb mb crc img p : List Nat)
    (hkb32 : kb.length < 4294967296)
    (hk16 : kb.length % 16 = 0)
    (hkdec : ext.aesCore (kb.map (fun b => b ^^^ 0x64)) ≠ [])
    (hlast : (ext.aesCore (kb.map (fun b => b ^^^ 0x64))).getLastD 0 = 0) :
    decodeE ext (mkContainer kb mb crc img p) = .error .indexError := by
  have hkdec' : (ext.aesCore (kb.map (fun b => b ^^^ 0x64))).isEmpty = false :=
    List.isEmpty_eq_false.mpr hkdec
  have hun : unpad (ext.aesCore (kb.map (fun b => b ^^^ 0x64))) = [] := by
    rw [unpad, hlast, pySliceNeg, if_pos rfl]
  simp only [decodeE, mk_take8, mk_keyLenB, toLE4_length, leU32_toLE4 _ hkb32, mk_keyData,
    List.length_map, hk16, hkdec', hun, List.drop_nil, List.isEmpty_nil, ne_eq,
    eq_self_iff_true, not_true_eq_false, Bool.false_eq_true, if_false, if_true,
    show ¬(4 : Nat) < 4 from by omega]

/-- C3 amended witness: a container whose decrypted key blob ends in the
padding value 0 fails with `IndexError`, not `CryptoError`. -/
theorem c3_amended_padding_not_validated_witness :
    ([] : List Nat).length < 4294967296 ∧ ([] : List Nat).length % 16 = 0 ∧
      (sampleExt (List.replicate 15 7 ++ [0])).aesCore
        (([] : List Nat).map (fun b => b ^^^ 0x64)) ≠ [] ∧
      ((sampleExt (List.replicate 15 7 ++ [0])).aesCore
        (([] : List Nat).map (fun b => b ^^^ 0x64))).getLastD 0 = 0 ∧
      decodeE (sampleExt (List.replicate 15 7 ++ [0]))
        (mkContainer [] [] [0, 0, 0, 0] [0, 0, 0, 0] [1, 2])
        = .error .indexError :=
  ⟨by decide, by decide, by decide, by decide,
    c3_amended_padding_not_validated (sampleExt (List.replicate 15 7 ++ [0]))
      [] [] [0, 0, 0, 0] [0, 0, 0, 0] [1, 2] (by decide) (by decide) (by decide) (by decide)⟩

set_option maxRecDepth 20000 in
/-- Full evaluation of the scheduling loop at the seed key `[0]`. -/
theorem buildKeyBox_zero_eval : buildKeyBox [0]
    = [0, 35, 3, 43, 9, 11, 65, 229, 32, 36, 134, 98, 59, 34, 173, 153, 214, 200, 64,
       161, 191, 62, 6, 25, 56, 234, 49, 246, 69, 133, 203, 194, 10, 42, 228, 198, 195,
       245, 236, 91, 206, 23, 235, 27, 138, 18, 143, 250, 244, 76, 123, 217, 132, 249,
       72, 127, 94, 151, 33, 60, 248, 85, 177, 210, 142, 83, 110, 140, 41, 135, 196,
       238, 156, 242, 141, 67, 5, 185, 131, 63, 137, 37, 172, 121, 70, 144, 237, 130,
       17, 44, 253, 166, 78, 201, 12, 119, 215, 7, 126, 114, 97, 192, 53, 4, 254, 45,
       102, 122, 230, 88, 193, 129, 160, 124, 84, 108, 239, 189, 152, 120, 115, 207,
       50, 176, 86, 157, 164, 187, 71, 1, 15, 58, 29, 21, 46, 145, 247, 162, 95, 183,
       13, 226, 159, 175, 221, 100, 96, 202, 101, 178, 154, 47, 205, 106, 148, 104, 93,
       112, 26, 165, 128, 186, 146, 218, 66, 211, 171, 90, 252, 19, 40, 99, 223, 174,
       255, 51, 77, 227, 48, 220, 168, 118, 224, 103, 75, 105, 125, 199, 73, 82, 57,
       181, 81, 149, 68, 52, 232, 22, 2, 216, 113, 30, 109, 163, 92, 61, 14, 8, 38,
       225, 79, 231, 170, 240, 20, 219, 204, 150, 180, 188, 116, 190, 241, 197, 179,
       87, 74, 147, 80, 54, 212, 16, 167, 222, 136, 213, 55, 182, 139, 24, 209, 251,
       208, 28, 111, 89, 158, 155, 243, 107, 233, 169, 117, 184, 31, 39] := by
  decide

/-- C5 counterexample: for the seed key `[0x00]`, the finished key box
does not have `box[1] = 1` and `box[3] = 5`: the hand-traced values only
describe the state after the first four iterations, and later iterations
move entries 1 and 3. -/
theorem c5_counterexample :
    ¬((buildKeyBox [0]).getD 0 0 = 0 ∧ (buildKeyBox [0]).getD 1 0 = 1
      ∧ (buildKeyBox [0]).getD 2 0 = 3 ∧ (buildKeyBox [0]).getD 3 0 = 5) := by
  rw [buildKeyBox_zero_eval]
  decide

set_option maxRecDepth 20000 in
/-- C5 amended: for the seed key `[0x00]`, the hand-traced values
`0, 1, 3, 5` hold after the first four scheduling iterations, while the
finished 256-iteration key box instead has
`box[0] = 0, box[1] = 35, box[2] = 3, box[3] = 43`. -/
theorem c5_amended_known_vector :
    ((keyBoxAfter [0] 4).1.getD 0 0 = 0 ∧ (keyBoxAfter [0] 4).1.getD 1 0 = 1
      ∧ (keyBoxAfter [0] 4).1.getD 2 0 = 3 ∧ (keyBoxAfter [0] 4).1.getD 3 0 = 5)
    ∧ ((buildKeyBox [0]).getD 0 0 = 0 ∧ (buildKeyBox [0]).getD 1 0 = 35
      ∧ (buildKeyBox [0]).getD 2 0 = 3 ∧ (buildKeyBox [0]).getD 3 0 = 43) := by
  rw [buildKeyBox_zero_eval]
  exact ⟨by decide, by decide⟩

/-- C6: for every input whose first 8 bytes differ from the magic
constant, decode fails with the format error (the failed `assert`),
whatever the cipher and library functions are — the result is independent
of every `Ext` component, so no cipher work can influence it. -/
theorem c6_bad_magic_is_format_error (ext : Ext) (s : List Nat)
    (h : s.take 8 ≠ magicBytes) : decodeE ext s = .error .formatError := by
  unfold decodeE
  rw [if_pos h]

/-- C6 witness: an all-zero buffer is rejected. -/
theorem c6_bad_magic_is_format_error_witness :
    (List.replicate 31 (0 : Nat)).take 8 ≠ magicBytes ∧
      decodeE (sampleExt goodKeyPlain) (List.replicate 31 0) = .error .formatError :=
  ⟨by decide, c6_bad_magic_is_format_error (sampleExt goodKeyPlain) _ (by decide)⟩

/-- C7: for every key box and payload, decrypting in 32768-byte chunks
with the 1-based position restarting at each chunk boundary equals
decrypting with the position counted continuously across the whole
payload, because 32768 is an exact multiple of 256. -/
theorem c7_chunked_eq_continuous (box : List Nat) (payload : List Nat) :
    decryptChunked box payload = decryptContinuous box payload :=
  decryptChunked_eq_continuous box payload

/-- C8: two containers that are identical except for the value of the
4-byte CRC32 field decode to identical results (same format extension,
same audio bytes): the stored CRC32 never influences the output. -/
theorem c8_crc32_noninterference (ext : Ext) (kb mb crc1 crc2 img p mB : List Nat)
    (metaStr : String) (metaDict : List (String × String)) (fmt : String)
    (hkb32 : kb.length < 4294967296) (hmb32 : mb.length < 4294967296)
    (hcrc1 : crc1.length = 4) (hcrc2 : crc2.length = 4) (himg : img.length = 4)
    (hk16 : kb.length % 16 = 0)
    (hkdec : ext.aesCore (kb.map (fun b => b ^^^ 0x64)) ≠ [])
    (hseed : (unpad (ext.aesCore (kb.map (fun b => b ^^^ 0x64)))).drop 17 ≠ [])
    (hb64 : ext.b64dec ((mb.map (fun b => b ^^^ 0x63)).drop 22) = some mB)
    (hm16 : mB.length % 16 = 0)
    (hmdec : ext.aesMeta mB ≠ [])
    (hutf : ext.utf8dec (unpad (ext.aesMeta mB)) = some metaStr)
    (hjson : ext.jsonLoads (metaStr.drop 6) = some metaDict)
    (hfmt : metaDict.lookup "format" = some fmt) :
    decodeE ext (mkContainer kb mb crc1 img p) = decodeE ext (mkContainer kb mb crc2 img p) := by
  rw [decodeE_mkContainer ext kb mb crc1 img p mB metaStr metaDict fmt hkb32 hmb32 hcrc1 himg
      hk16 hkdec hseed hb64 hm16 hmdec hutf hjson hfmt,
    decodeE_mkContainer ext kb mb crc2 img p mB metaStr metaDict fmt hkb32 hmb32 hcrc2 himg
      hk16 hkdec hseed hb64 hm16 hmdec hutf hjson hfmt]

/-- C8 witness: two containers differing only in the CRC32 field bytes. -/
theorem c8_crc32_noninterference_witness :
    ([3, 1, 4, 1] : List Nat).length = 4 ∧ ([255, 255, 255, 255] : List Nat).length = 4 ∧
      decodeE (sampleExt goodKeyPlain) (mkContainer [] [] [3, 1, 4, 1] [0, 0, 0, 0] [8])
        = decodeE (sampleExt goodKeyPlain) (mkContainer [] [] [255, 255, 255, 255] [0, 0, 0, 0] [8]) :=
  ⟨by decide, by decide,
    c8_crc32_noninterference (sampleExt goodKeyPlain) [] [] [3, 1, 4, 1] [255, 255, 255, 255]
      [0, 0, 0, 0] [8] (List.replicate 16 0) "music:\x7b\x7d" [("format", "mp3")] "mp3"
      (by decide) (by decide) (by decide) (by decide) (by decide) (by decide) (by decide)
      (by decide) rfl (by decide) (by decide) rfl rfl (by decide)⟩

/-- C9: a well-formed container with a zero-length audio payload decodes
to zero output bytes and no error. -/
theorem c9_empty_payload_ok (ext : Ext) (kb mb crc img mB : List Nat)
    (metaStr : String) (metaDict : List (String × String)) (fmt : String)
    (hkb32 : kb.length < 4294967296) (hmb32 : mb.length < 4294967296)
    (hcrc : crc.length = 4) (himg : img.length = 4)
    (hk16 : kb.length % 16 = 0)
    (hkdec : ext.aesCore (kb.map (fun b => b ^^^ 0x64)) ≠ [])
    (hseed : (unpad (ext.aesCore (kb.map (fun b => b ^^^ 0x64)))).drop 17 ≠ [])
    (hb64 : ext.b64dec ((mb.map (fun b => b ^^^ 0x63)).drop 22) = some mB)
    (hm16 : mB.length % 16 = 0)
    (hmdec : ext.aesMeta mB ≠ [])
    (hutf : ext.utf8dec (unpad (ext.aesMeta mB)) = some metaStr)
    (hjson : ext.jsonLoads (metaStr.drop 6) = some metaDict)
    (hfmt : metaDict.lookup "format" = some fmt) :
    decodeE ext (mkContainer kb mb crc img []) = .ok (fmt, []) := by
  rw [decodeE_mkContainer ext kb mb crc img [] mB metaStr metaDict fmt hkb32 hmb32 hcrc himg
      hk16 hkdec hseed hb64 hm16 hmdec hutf hjson hfmt, decryptChunked_nil]

/-- C9 witness: a concrete container with an empty audio payload. -/
theorem c9_empty_payload_ok_witness :
    decodeE (sampleExt goodKeyPlain) (mkContainer [] [] [0, 0, 0, 0] [0, 0, 0, 0] [])
      = .ok ("mp3", []) :=
  c9_empty_payload_ok (sampleExt goodKeyPlain) [] [] [0, 0, 0, 0] [0, 0, 0, 0]
    (List.replicate 16 0) "music:\x7b\x7d" [("format", "mp3")] "mp3"
    (by decide) (by decide) (by decide) (by decide) (by decide) (by decide) (by decide)
    rfl (by decide) (by decide) rfl rfl (by decide)

/-- C10: with a 256-entry key box, every table lookup of the per-byte
decryption transform is in bounds — the bounds-checked run of the chunk
loop succeeds on every chunk, at every position, whatever the box
contents, and computes the same bytes as the unchecked model. -/
theorem c10_lookups_in_bounds (box : List Nat) (hbox : box.length = 256)
    (i : Nat) (chunk : List Nat) :
    decryptFromChecked box i chunk = some (decryptFrom box i chunk) :=
  decryptFromChecked_eq box hbox i chunk

/-- C10 witness: the checked loop succeeds on a concrete chunk. -/
theorem c10_lookups_in_bounds_witness :
    (List.range 256).length = 256 ∧
      decryptFromChecked (List.range 256) 1 [7, 8]
        = some (decryptFrom (List.range 256) 1 [7, 8]) :=
  ⟨by simp, c10_lookups_in_bounds (List.range 256) (by simp) 1 [7, 8]⟩

end Ncm
